import Mathlib

/-!
Verification of the pairwise-ranking engine of the shelf_showdown repository.

The JavaScript modules are shallowly embedded:

* `modules/ranking.js` — the Elo rating model (`calculateExpectedScore`,
  `updateRatings`, `calculateRanking`).  JavaScript numbers are modelled as
  real numbers (`ℝ`) where the code computes with `Math.pow`, and as
  rationals (`ℚ`) where only ordering and equality matter.
* `modules/rankings.js` (the comparisons part) — the comparison ledger
  (`Comparison`, `validateComparison`, `storeComparison`,
  `checkDuplicateComparison`) and the full replay
  (`processAllComparisons`).
* `modules/rankings.js` (the snapshot part) — `Ranking.getBookRank` and
  `Ranking.getBookByRank`.
* `modules/sheets.js` — `retryWithBackoff`, the `SyncQueue` drain
  (`process`) and `resolveSyncConflicts`.

Thrown JavaScript errors are modelled with `Except String` carrying the
exact message of the `Error` the source constructs; external effects
(the remote spreadsheet write, connectivity) are parameters of the
embedded functions.
-/

/-! ## RatingModel (`modules/ranking.js`) -/

/-- Constant `INITIAL_RATING = 1500` from `modules/ranking.js`. -/
def INITIAL_RATING : ℝ := 1500

/-- Constant `K_FACTOR = 32` from `modules/ranking.js`. -/
def K_FACTOR : ℝ := 32

/-- `calculateExpectedScore(ratingA, ratingB)`:
`1 / (1 + Math.pow(10, (ratingB - ratingA) / 400))`. -/
noncomputable def calculateExpectedScore (ratingA ratingB : ℝ) : ℝ :=
  1 / (1 + (10 : ℝ) ^ ((ratingB - ratingA) / 400))

/-- The intermediate `newRatingA` of `updateRatings`:
`ratingA + K_FACTOR * (outcome - expectedA)` (before `Math.round`). -/
noncomputable def newRatingA (ratingA ratingB outcome : ℝ) : ℝ :=
  ratingA + K_FACTOR * (outcome - calculateExpectedScore ratingA ratingB)

/-- The intermediate `newRatingB` of `updateRatings`:
`ratingB + K_FACTOR * ((1 - outcome) - expectedB)` with
`expectedB = 1 - expectedA` (before `Math.round`). -/
noncomputable def newRatingB (ratingA ratingB outcome : ℝ) : ℝ :=
  ratingB + K_FACTOR * ((1 - outcome) - (1 - calculateExpectedScore ratingA ratingB))

/-- `updateRatings(ratingA, ratingB, outcome)` returns
`{ratingA: Math.round(newRatingA), ratingB: Math.round(newRatingB)}`.
`Math.round` (round half toward +∞) is Mathlib's `round`. -/
noncomputable def updateRatings (ratingA ratingB outcome : ℝ) : ℤ × ℤ :=
  (round (newRatingA ratingA ratingB outcome), round (newRatingB ratingA ratingB outcome))

lemma pow_term_pos (ratingA ratingB : ℝ) :
    0 < (10 : ℝ) ^ ((ratingB - ratingA) / 400) :=
  Real.rpow_pos_of_pos (by norm_num) _

lemma one_add_pow_term_pos (ratingA ratingB : ℝ) :
    0 < 1 + (10 : ℝ) ^ ((ratingB - ratingA) / 400) := by
  have h := pow_term_pos ratingA ratingB
  linarith

lemma calculateExpectedScore_pos (ratingA ratingB : ℝ) :
    0 < calculateExpectedScore ratingA ratingB := by
  unfold calculateExpectedScore
  exact div_pos one_pos (one_add_pow_term_pos ratingA ratingB)

lemma calculateExpectedScore_lt_one (ratingA ratingB : ℝ) :
    calculateExpectedScore ratingA ratingB < 1 := by
  unfold calculateExpectedScore
  rw [div_lt_one (one_add_pow_term_pos ratingA ratingB)]
  have h := pow_term_pos ratingA ratingB
  linarith

lemma calculateExpectedScore_add_symm (ratingA ratingB : ℝ) :
    calculateExpectedScore ratingA ratingB + calculateExpectedScore ratingB ratingA = 1 := by
  unfold calculateExpectedScore
  have hneg : (ratingA - ratingB) / 400 = -((ratingB - ratingA) / 400) := by ring
  rw [hneg, Real.rpow_neg (by norm_num : (0:ℝ) ≤ 10)]
  have ht := pow_term_pos ratingA ratingB
  have ht' : (10 : ℝ) ^ ((ratingB - ratingA) / 400) ≠ 0 := ne_of_gt ht
  field_simp
  ring

lemma calculateExpectedScore_self (r : ℝ) : calculateExpectedScore r r = 1 / 2 := by
  unfold calculateExpectedScore
  rw [show (r - r) / 400 = (0 : ℝ) by ring, Real.rpow_zero]
  norm_num

/-- The complement `1 - expectedA` the code uses for B equals the expected
score computed from B's side; this backs the spec's per-player formula. -/
lemma one_sub_expected (ratingA ratingB : ℝ) :
    1 - calculateExpectedScore ratingA ratingB = calculateExpectedScore ratingB ratingA := by
  have h := calculateExpectedScore_add_symm ratingA ratingB
  linarith

lemma newRatings_sum (ratingA ratingB outcome : ℝ) :
    newRatingA ratingA ratingB outcome + newRatingB ratingA ratingB outcome
      = ratingA + ratingB := by
  unfold newRatingA newRatingB
  ring

lemma updateRatings_eq_1500 :
    updateRatings 1500 1500 1 = (1516, 1484) := by
  unfold updateRatings newRatingA newRatingB
  rw [calculateExpectedScore_self]
  have hA : (1500 : ℝ) + K_FACTOR * (1 - 1 / 2) = ((1516 : ℤ) : ℝ) := by
    unfold K_FACTOR; norm_num
  have hB : (1500 : ℝ) + K_FACTOR * ((1 - 1) - (1 - 1 / 2)) = ((1484 : ℤ) : ℝ) := by
    unfold K_FACTOR; norm_num
  rw [hA, hB, round_intCast, round_intCast]

/-- C9: `expectedScore(ratingA, ratingB)` equals
`1 / (1 + 10^((ratingB − ratingA)/400))`, lies strictly between 0 and 1,
and the two symmetric calls sum to exactly 1. -/
theorem claim_C9_expectedScore (rA rB : ℝ) :
    calculateExpectedScore rA rB = 1 / (1 + (10 : ℝ) ^ ((rB - rA) / 400)) ∧
    0 < calculateExpectedScore rA rB ∧
    calculateExpectedScore rA rB < 1 ∧
    calculateExpectedScore rA rB + calculateExpectedScore rB rA = 1 :=
  ⟨rfl, calculateExpectedScore_pos rA rB, calculateExpectedScore_lt_one rA rB,
    calculateExpectedScore_add_symm rA rB⟩

/-- C8: `applyOutcome` (source name `updateRatings`) returns each new rating
computed as the old rating plus `K = 32` times (that player's outcome minus
that player's expected score), rounded to the nearest integer; in
particular `updateRatings 1500 1500 1 = (1516, 1484)`. -/
theorem claim_C8_applyOutcome (rA rB outcome : ℝ) :
    updateRatings rA rB outcome
      = (round (rA + 32 * (outcome - calculateExpectedScore rA rB)),
         round (rB + 32 * ((1 - outcome) - calculateExpectedScore rB rA))) ∧
    updateRatings 1500 1500 1 = (1516, 1484) := by
  constructor
  · unfold updateRatings newRatingA newRatingB K_FACTOR
    rw [one_sub_expected]
  · exact updateRatings_eq_1500

/-- C10: a single rating update conserves total rating: the two pre-rounding
new ratings sum exactly to `ratingA + ratingB`, and the returned rounded
ratings sum to within 1 of `ratingA + ratingB`. -/
theorem claim_C10_conservation (rA rB outcome : ℝ) :
    newRatingA rA rB outcome + newRatingB rA rB outcome = rA + rB ∧
    |(((updateRatings rA rB outcome).1 : ℝ) + ((updateRatings rA rB outcome).2 : ℝ))
        - (rA + rB)| ≤ 1 := by
  refine ⟨newRatings_sum rA rB outcome, ?_⟩
  have hsum := newRatings_sum rA rB outcome
  set x := newRatingA rA rB outcome with hx
  set y := newRatingB rA rB outcome with hy
  have h1 : |x - (round x : ℝ)| ≤ 1 / 2 := abs_sub_round x
  have h2 : |y - (round y : ℝ)| ≤ 1 / 2 := abs_sub_round y
  have : ((updateRatings rA rB outcome).1 : ℝ) = (round x : ℝ) := by
    unfold updateRatings; rw [← hx]
  have h3 : ((updateRatings rA rB outcome).2 : ℝ) = (round y : ℝ) := by
    unfold updateRatings; rw [← hy]
  rw [this, h3, ← hsum]
  have habs : |(round x : ℝ) + (round y : ℝ) - (x + y)|
      ≤ |x - (round x : ℝ)| + |y - (round y : ℝ)| := by
    rw [show (round x : ℝ) + (round y : ℝ) - (x + y)
        = -((x - (round x : ℝ)) + (y - (round y : ℝ))) by ring, abs_neg]
    exact abs_add _ _
  linarith

/-! ## ComparisonLedger (`modules/rankings.js`, comparisons part) -/

/-- Comparison record as built by the `Comparison` class: two book ids, the
winner id and a timestamp.  The constructor's validation and canonical
reordering live in `mkComparison`. -/
structure Comparison where
  bookA : ℕ
  bookB : ℕ
  winner : ℕ
  timestamp : ℕ
deriving DecidableEq, Repr

/-- The `Comparison` constructor: throws on a self-comparison or a
non-participant winner, then swaps the ids so the smaller comes first. -/
def mkComparison (bookAId bookBId winnerId timestamp : ℕ) : Except String Comparison :=
  if bookAId = bookBId then .error "Cannot compare a book with itself"
  else if winnerId ≠ bookAId ∧ winnerId ≠ bookBId then
    .error "Winner must be one of the compared books"
  else if bookAId > bookBId then .ok ⟨bookBId, bookAId, winnerId, timestamp⟩
  else .ok ⟨bookAId, bookBId, winnerId, timestamp⟩

/-- `validateComparison`: collects error strings in push order.  A JavaScript
id of `0` is falsy, so the "Missing required fields" check fires on id 0. -/
def validateComparison (c : Comparison) : List String :=
  (if c.bookA = 0 ∨ c.bookB = 0 ∨ c.winner = 0 then ["Missing required fields"] else []) ++
  (if c.bookA = c.bookB then ["Cannot compare book with itself"] else []) ++
  (if c.winner ≠ c.bookA ∧ c.winner ≠ c.bookB then
    ["Winner must be one of the compared books"] else [])

/-- Filter predicate of `getComparisonsByBookIds` for a specific pair. -/
def matchesPair (bookId1 bookId2 : ℕ) (c : Comparison) : Bool :=
  (c.bookA == bookId1 && c.bookB == bookId2) || (c.bookA == bookId2 && c.bookB == bookId1)

/-- `getComparisonsByBookIds(bookId1, bookId2?)` over the ledger list. -/
def getComparisonsByBookIds (bookId1 : ℕ) (bookId2 : Option ℕ) (L : List Comparison) :
    List Comparison :=
  match bookId2 with
  | none => L.filter (fun c => c.bookA == bookId1 || c.bookB == bookId1)
  | some b2 => L.filter (matchesPair bookId1 b2)

/-- `checkDuplicateComparison(bookA, bookB)`: canonicalizes the pair, then
checks whether any comparison for it exists. -/
def checkDuplicateComparison (bookA bookB : ℕ) (L : List Comparison) : Bool :=
  let p := if bookA > bookB then (bookB, bookA) else (bookA, bookB)
  decide (0 < (getComparisonsByBookIds p.1 (some p.2) L).length)

/-- `storeComparison`: validation, duplicate check, then append to the
durable ledger (modelled as the list in insertion order). -/
def storeComparison (L : List Comparison) (c : Comparison) : Except String (List Comparison) :=
  if validateComparison c ≠ [] then
    .error ("Invalid comparison: " ++ String.intercalate ", " (validateComparison c))
  else if checkDuplicateComparison c.bookA c.bookB L then
    .error "This book pair has already been compared"
  else .ok (L ++ [c])

/-- The spec's `record(itemA, itemB, winner)`: construct a `Comparison`
(the constructor may throw) and store it. -/
def recordComparison (L : List Comparison) (bookAId bookBId winnerId timestamp : ℕ) :
    Except String (List Comparison) :=
  match mkComparison bookAId bookBId winnerId timestamp with
  | .error e => .error e
  | .ok c => storeComparison L c

lemma mkComparison_ok {a b w t : ℕ} {c : Comparison}
    (h : mkComparison a b w t = .ok c) :
    a ≠ b ∧ (w = a ∨ w = b) ∧ c = ⟨min a b, max a b, w, t⟩ := by
  unfold mkComparison at h
  by_cases h1 : a = b
  · rw [if_pos h1] at h; exact Except.noConfusion h
  · rw [if_neg h1] at h
    by_cases h2 : w ≠ a ∧ w ≠ b
    · rw [if_pos h2] at h; exact Except.noConfusion h
    · rw [if_neg h2] at h
      have hw : w = a ∨ w = b := by
        by_cases hwa : w = a
        · exact Or.inl hwa
        · exact Or.inr (by by_contra hwb; exact h2 ⟨hwa, hwb⟩)
      by_cases h3 : a > b
      · rw [if_pos h3] at h
        injection h with h'
        subst h'
        exact ⟨h1, hw, by simp [show min a b = b by omega, show max a b = a by omega]⟩
      · rw [if_neg h3] at h
        injection h with h'
        subst h'
        exact ⟨h1, hw, by simp [show min a b = a by omega, show max a b = b by omega]⟩

lemma validateComparison_eq_nil_iff (c : Comparison) :
    validateComparison c = [] ↔
      c.bookA ≠ 0 ∧ c.bookB ≠ 0 ∧ c.winner ≠ 0 ∧ c.bookA ≠ c.bookB ∧
        (c.winner = c.bookA ∨ c.winner = c.bookB) := by
  unfold validateComparison
  constructor
  · intro h
    by_cases h1 : c.bookA = 0 ∨ c.bookB = 0 ∨ c.winner = 0
    · simp [h1] at h
    · by_cases h2 : c.bookA = c.bookB
      · simp [h1, h2] at h
      · by_cases h3 : c.winner ≠ c.bookA ∧ c.winner ≠ c.bookB
        · simp [h1, h2, h3] at h
        · push_neg at h1 h3
          refine ⟨h1.1, h1.2.1, h1.2.2, h2, ?_⟩
          by_cases hw : c.winner = c.bookA
          · exact Or.inl hw
          · exact Or.inr (h3 hw)
  · rintro ⟨h1, h2, h3, h4, h5⟩
    have hA : ¬(c.bookA = 0 ∨ c.bookB = 0 ∨ c.winner = 0) := by
      push_neg; exact ⟨h1, h2, h3⟩
    have hW : ¬(c.winner ≠ c.bookA ∧ c.winner ≠ c.bookB) := by
      rintro ⟨ha, hb⟩; rcases h5 with h | h; exacts [ha h, hb h]
    simp [hA, h4, hW]

lemma matchesPair_comm (a b : ℕ) (c : Comparison) :
    matchesPair a b c = matchesPair b a c := by
  unfold matchesPair
  exact Bool.or_comm _ _

lemma checkDuplicateComparison_eq_false_iff (a b : ℕ) (L : List Comparison) :
    checkDuplicateComparison a b L = false ↔ L.filter (matchesPair a b) = [] := by
  unfold checkDuplicateComparison getComparisonsByBookIds
  split_ifs with hab
  · simp only [decide_eq_false_iff_not, not_lt, Nat.le_zero, List.length_eq_zero]
    rw [List.filter_congr (fun c _ => matchesPair_comm b a c)]
  · simp only [decide_eq_false_iff_not, not_lt, Nat.le_zero, List.length_eq_zero]

lemma checkDuplicateComparison_eq_true_of_mem {a b : ℕ} {L : List Comparison}
    {c : Comparison} (hmem : c ∈ L) (hc : matchesPair a b c = true) :
    checkDuplicateComparison a b L = true := by
  unfold checkDuplicateComparison getComparisonsByBookIds
  split_ifs with hab
  · have hm : c ∈ L.filter (matchesPair b a) :=
      List.mem_filter.mpr ⟨hmem, by rw [matchesPair_comm b a]; exact hc⟩
    simpa using List.length_pos.mpr (List.ne_nil_of_mem hm)
  · have hm : c ∈ L.filter (matchesPair a b) := List.mem_filter.mpr ⟨hmem, hc⟩
    simpa using List.length_pos.mpr (List.ne_nil_of_mem hm)

lemma storeComparison_ok {L L' : List Comparison} {c : Comparison}
    (h : storeComparison L c = .ok L') :
    validateComparison c = [] ∧ checkDuplicateComparison c.bookA c.bookB L = false ∧
      L' = L ++ [c] := by
  unfold storeComparison at h
  by_cases h1 : validateComparison c ≠ []
  · rw [if_pos h1] at h; exact Except.noConfusion h
  · rw [if_neg h1] at h
    by_cases h2 : checkDuplicateComparison c.bookA c.bookB L = true
    · rw [if_pos h2] at h; exact Except.noConfusion h
    · rw [if_neg h2] at h
      injection h with h'
      exact ⟨not_ne_iff.mp h1, by simpa using h2, h'.symm⟩

lemma storeComparison_dup {L : List Comparison} {c : Comparison}
    (hv : validateComparison c = [])
    (hd : checkDuplicateComparison c.bookA c.bookB L = true) :
    storeComparison L c = .error "This book pair has already been compared" := by
  unfold storeComparison
  rw [if_neg (by simp [hv]), if_pos hd]

lemma matchesPair_canonical (a b w t : ℕ) :
    matchesPair a b ⟨min a b, max a b, w, t⟩ = true := by
  unfold matchesPair
  rcases le_total a b with h | h
  · simp [min_eq_left h, max_eq_right h]
  · simp [min_eq_right h, max_eq_left h]

lemma matchesPair_min_max (a b : ℕ) (c : Comparison) :
    matchesPair (min a b) (max a b) c = matchesPair a b c := by
  rcases le_total a b with h | h
  · rw [min_eq_left h, max_eq_right h]
  · rw [min_eq_right h, max_eq_left h, matchesPair_comm]

lemma mkComparison_ok_of {a b w : ℕ} (t : ℕ) (h1 : a ≠ b) (hw : w = a ∨ w = b) :
    mkComparison a b w t = .ok ⟨min a b, max a b, w, t⟩ := by
  unfold mkComparison
  rw [if_neg h1, if_neg (by rintro ⟨ha, hb⟩; rcases hw with h | h; exacts [ha h, hb h])]
  by_cases h3 : a > b
  · rw [if_pos h3]; simp [show min a b = b by omega, show max a b = a by omega]
  · rw [if_neg h3]; simp [show min a b = a by omega, show max a b = b by omega]

lemma recordComparison_dup_aux (L' : List Comparison) (x y w' t' : ℕ)
    (hxy : x ≠ y) (hx0 : x ≠ 0) (hy0 : y ≠ 0) (hw : w' = x ∨ w' = y)
    (hmem : ∃ c ∈ L', matchesPair x y c = true) :
    recordComparison L' x y w' t' = .error "This book pair has already been compared" := by
  unfold recordComparison
  rw [mkComparison_ok_of t' hxy hw]
  obtain ⟨c, hcmem, hcmatch⟩ := hmem
  have hv : validateComparison ⟨min x y, max x y, w', t'⟩ = [] := by
    rw [validateComparison_eq_nil_iff]
    refine ⟨by simp; omega, by simp; omega, ?_, by simp; omega, by simp; omega⟩
    simp only
    rcases hw with h | h <;> omega
  have hd : checkDuplicateComparison (min x y) (max x y) L' = true :=
    checkDuplicateComparison_eq_true_of_mem hcmem
      (by rw [matchesPair_min_max]; exact hcmatch)
  exact storeComparison_dup hv hd

/-- C5: after a successful `record` for the unordered pair `{a, b}`, a second
record attempt for the same pair — in either argument order, with any valid
winner and timestamp — fails with the duplicate-pair error, and the ledger
keeps exactly one record for the pair, stored in canonical order (smaller
id first). -/
theorem claim_C5_duplicatePair (L L' : List Comparison) (a b w t a' b' w' t' : ℕ)
    (h : recordComparison L a b w t = .ok L')
    (horder : (a' = a ∧ b' = b) ∨ (a' = b ∧ b' = a))
    (hw' : w' = a' ∨ w' = b') :
    recordComparison L' a' b' w' t' = .error "This book pair has already been compared" ∧
    L'.filter (matchesPair a b) = [⟨min a b, max a b, w, t⟩] := by
  unfold recordComparison at h
  cases hmk : mkComparison a b w t with
  | error e => rw [hmk] at h; exact Except.noConfusion h
  | ok c =>
    rw [hmk] at h
    obtain ⟨hab, hwab, hc⟩ := mkComparison_ok hmk
    obtain ⟨hv, hd, hL'⟩ := storeComparison_ok h
    subst hc
    subst hL'
    have hids := (validateComparison_eq_nil_iff _).mp hv
    simp only at hids
    have ha0 : a ≠ 0 := by rcases hids with ⟨h1, h2, _⟩; omega
    have hb0 : b ≠ 0 := by rcases hids with ⟨h1, h2, _⟩; omega
    have hLfilter : L.filter (matchesPair a b) = [] := by
      have := (checkDuplicateComparison_eq_false_iff (min a b) (max a b) L).mp (by simpa using hd)
      rw [List.filter_congr (fun c _ => (matchesPair_min_max a b c).symm)]
      exact this
    have hcanon : matchesPair a b (⟨min a b, max a b, w, t⟩ : Comparison) = true :=
      matchesPair_canonical a b w t
    constructor
    · obtain ⟨ha2, hb2⟩ | ⟨ha2, hb2⟩ := horder
      · rw [ha2, hb2]
        rw [ha2, hb2] at hw'
        exact recordComparison_dup_aux _ a b w' t' hab ha0 hb0 hw'
          ⟨⟨min a b, max a b, w, t⟩, by simp, hcanon⟩
      · rw [ha2, hb2]
        rw [ha2, hb2] at hw'
        exact recordComparison_dup_aux _ b a w' t' (Ne.symm hab) hb0 ha0 hw'
          ⟨⟨min a b, max a b, w, t⟩, by simp, by rw [matchesPair_comm]; exact hcanon⟩
    · rw [List.filter_append, hLfilter, List.nil_append]
      simp [hcanon]

/-- Witness for C5 at a concrete input: recording `(1, 2, winner 1)` into an
empty ledger succeeds, after which recording `(2, 1, winner 2)` fails with
the duplicate-pair error and the ledger holds the single canonical record. -/
theorem claim_C5_duplicatePair_witness :
    recordComparison ([] : List Comparison) 1 2 1 0 = .ok [⟨1, 2, 1, 0⟩] ∧
    recordComparison [⟨1, 2, 1, 0⟩] 2 1 2 5
        = .error "This book pair has already been compared" ∧
    [(⟨1, 2, 1, 0⟩ : Comparison)].filter (matchesPair 1 2) = [⟨min 1 2, max 1 2, 1, 0⟩] := by
  have h1 : recordComparison ([] : List Comparison) 1 2 1 0 = .ok [⟨1, 2, 1, 0⟩] := by rfl
  have h2 := claim_C5_duplicatePair [] [⟨1, 2, 1, 0⟩] 1 2 1 0 2 1 2 5 h1
    (Or.inr ⟨rfl, rfl⟩) (Or.inl rfl)
  exact ⟨h1, h2.1, h2.2⟩

/-- C6: every `record(itemA, itemB, winner)` call with `itemA = itemB` or a
winner that is neither participant fails synchronously with one of the
constructor's validation errors, and (the result being an error) nothing is
appended to the ledger.  In particular `record(5, 5, 5)` fails. -/
theorem claim_C6_invalidComparison (L : List Comparison) (a b w t : ℕ)
    (h : a = b ∨ (w ≠ a ∧ w ≠ b)) :
    recordComparison L a b w t = .error "Cannot compare a book with itself" ∨
    recordComparison L a b w t = .error "Winner must be one of the compared books" := by
  unfold recordComparison mkComparison
  by_cases hab : a = b
  · left; rw [if_pos hab]
  · right
    have hw : w ≠ a ∧ w ≠ b := by rcases h with h | h; exacts [absurd h hab, h]
    rw [if_neg hab, if_pos hw]

/-- Witness for C6 at the spec's concrete input: `record(5, 5, 5)` fails
with the self-comparison validation error. -/
theorem claim_C6_invalidComparison_witness :
    ((5 : ℕ) = 5 ∨ ((5 : ℕ) ≠ 5 ∧ (5 : ℕ) ≠ 5)) ∧
    (recordComparison [] 5 5 5 0 = .error "Cannot compare a book with itself" ∨
     recordComparison [] 5 5 5 0 = .error "Winner must be one of the compared books") :=
  ⟨Or.inl rfl, claim_C6_invalidComparison [] 5 5 5 0 (Or.inl rfl)⟩

/-! ## RankingCalculator (`modules/ranking.js` ordering and the `Ranking`
snapshot class of `modules/rankings.js`) -/

/-- Book record as consumed by `calculateRanking` and the `Ranking` class:
id, display title and a numeric rating.  Ratings are modelled as `ℚ`
(only ordering and equality of JavaScript numbers matter here). -/
structure RBook where
  id : ℕ
  title : String
  rating : ℚ
deriving DecidableEq, Repr

/-- `calculateRanking(books)`:
`books.slice().sort((a, b) => b.rating - a.rating)` — a stable sort by
rating descending, modelled with a stable merge sort. -/
def calculateRanking (books : List RBook) : List RBook :=
  books.mergeSort (fun x y => decide (y.rating ≤ x.rating))

/-- `Ranking.getBookRank(bookId)`: `findIndex` on the snapshot's book list,
1-based; `null` (here `none`) when absent. -/
def getBookRank (rankedBooks : List RBook) (bookId : ℕ) : Option ℤ :=
  (rankedBooks.findIdx? (fun bk => bk.id == bookId)).map (fun i => (i : ℤ) + 1)

/-- `Ranking.getBookByRank(position)`: `rankedBooks[position - 1] || null`.
A negative JavaScript index reads `undefined`, hence `none`. -/
def getBookByRank (rankedBooks : List RBook) (position : ℤ) : Option RBook :=
  if 0 ≤ position - 1 then rankedBooks[(position - 1).toNat]? else none

lemma findIdx?_of_getElem :
    ∀ (l : List RBook), (l.map RBook.id).Nodup →
      ∀ (i : ℕ) (bk : RBook), l[i]? = some bk →
        ∀ s : ℕ, l.findIdx? (fun x => x.id == bk.id) s = some (s + i) := by
  intro l
  induction l with
  | nil => intro _ i bk h _; simp at h
  | cons x xs ih =>
    intro hN i bk h s
    cases i with
    | zero =>
      simp at h
      subst h
      rw [List.findIdx?_cons, if_pos (by simp)]
      simp
    | succ i =>
      simp at h
      have hNtail : (xs.map RBook.id).Nodup := by
        simpa using (List.nodup_cons.mp (by simpa using hN)).2
      have hxmem : bk ∈ xs := List.mem_iff_getElem?.mpr ⟨i, h⟩
      have hxne : x.id ≠ bk.id := by
        intro he
        have : x.id ∈ xs.map RBook.id := List.mem_map.mpr ⟨bk, hxmem, he.symm⟩
        exact (List.nodup_cons.mp (by simpa using hN)).1 this
      rw [List.findIdx?_cons, if_neg (by simpa using hxne)]
      rw [ih hNtail i bk h (s + 1)]
      congr 1
      omega

/-- C7: a ranking snapshot produced by `calculateRanking` over books with
pairwise-distinct ids is non-increasing in rating, and `getBookRank` /
`getBookByRank` are mutually inverse: every valid 1-based position round
trips through the book at that position, and every book id present round
trips through its rank. -/
theorem claim_C7_ranking_inverse (books : List RBook)
    (hN : (books.map RBook.id).Nodup) :
    (calculateRanking books).Pairwise (fun x y => y.rating ≤ x.rating) ∧
    (∀ p : ℤ, 1 ≤ p → p ≤ ((calculateRanking books).length : ℤ) →
      ∃ bk, getBookByRank (calculateRanking books) p = some bk ∧
        getBookRank (calculateRanking books) bk.id = some p) ∧
    (∀ bk ∈ calculateRanking books,
      ∃ p, getBookRank (calculateRanking books) bk.id = some p ∧
        getBookByRank (calculateRanking books) p = some bk) := by
  set ranked := calculateRanking books with hranked
  have hperm : ranked.Perm books := List.mergeSort_perm books _
  have hN' : (ranked.map RBook.id).Nodup :=
    hN.perm ((hperm.symm).map RBook.id)
  refine ⟨?_, ?_, ?_⟩
  · have hs := @List.sorted_mergeSort RBook
      (fun x y : RBook => decide (y.rating ≤ x.rating))
      (fun a b c hab hbc => by
        simp only [decide_eq_true_eq] at *
        exact le_trans hbc hab)
      (fun a b => by
        simp only [Bool.or_eq_true, decide_eq_true_eq]
        exact le_total b.rating a.rating)
      books
    exact hs.imp (fun h => by simpa using h)
  · intro p hp1 hp2
    have hlt : (p - 1).toNat < ranked.length := by omega
    refine ⟨ranked[(p - 1).toNat], ?_, ?_⟩
    · unfold getBookByRank
      rw [if_pos (by omega), List.getElem?_eq_getElem hlt]
    · unfold getBookRank
      rw [findIdx?_of_getElem ranked hN' _ _
        (List.getElem?_eq_getElem hlt) 0]
      show some _ = some p
      congr 1
      show ((0 + (p - 1).toNat : ℕ) : ℤ) + 1 = p
      omega
  · intro bk hmem
    obtain ⟨n, hn⟩ := List.mem_iff_getElem?.mp hmem
    refine ⟨(n : ℤ) + 1, ?_, ?_⟩
    · unfold getBookRank
      rw [findIdx?_of_getElem ranked hN' n bk hn 0]
      simp
    · unfold getBookByRank
      rw [if_pos (by omega)]
      have : ((n : ℤ) + 1 - 1).toNat = n := by omega
      rw [this]
      exact hn

/-- Witness for C7 at a concrete snapshot: two books with distinct ids. -/
theorem claim_C7_ranking_inverse_witness :
    (([⟨1, "Dune", 3⟩, ⟨2, "Emma", 5⟩] : List RBook).map RBook.id).Nodup ∧
    (((calculateRanking [⟨1, "Dune", 3⟩, ⟨2, "Emma", 5⟩]).Pairwise
        (fun x y => y.rating ≤ x.rating)) ∧
      (∀ p : ℤ, 1 ≤ p →
          p ≤ ((calculateRanking [⟨1, "Dune", 3⟩, ⟨2, "Emma", 5⟩]).length : ℤ) →
        ∃ bk, getBookByRank (calculateRanking [⟨1, "Dune", 3⟩, ⟨2, "Emma", 5⟩]) p
              = some bk ∧
          getBookRank (calculateRanking [⟨1, "Dune", 3⟩, ⟨2, "Emma", 5⟩]) bk.id
              = some p) ∧
      (∀ bk ∈ calculateRanking [⟨1, "Dune", 3⟩, ⟨2, "Emma", 5⟩],
        ∃ p, getBookRank (calculateRanking [⟨1, "Dune", 3⟩, ⟨2, "Emma", 5⟩]) bk.id
              = some p ∧
          getBookByRank (calculateRanking [⟨1, "Dune", 3⟩, ⟨2, "Emma", 5⟩]) p
              = some bk)) :=
  ⟨by decide, claim_C7_ranking_inverse [⟨1, "Dune", 3⟩, ⟨2, "Emma", 5⟩] (by decide)⟩

/-! ## Replay (`processAllComparisons` in `modules/rankings.js`) -/

/-- Book entry of the `booksMap` built by `processAllComparisons`: id plus a
rating that may still be unset (`undefined` in the source, `none` here). -/
structure LedgerBook where
  id : ℕ
  rating : Option ℝ

/-- `booksMap.get(id)` over the book list (ids are unique in the store). -/
def getBook (m : List LedgerBook) (bookId : ℕ) : Option LedgerBook :=
  m.find? (fun b => b.id == bookId)

/-- Write one book's rating back into the map. -/
def setFun (bookId : ℕ) (r : ℝ) (b : LedgerBook) : LedgerBook :=
  if b.id = bookId then { b with rating := some r } else b

/-- `book.rating = r` for the entry with the given id. -/
def setRating (m : List LedgerBook) (bookId : ℕ) (r : ℝ) : List LedgerBook :=
  m.map (setFun bookId r)

/-- `Comparison.fromObject` re-runs the constructor, which re-canonicalizes
the pair (smaller id first); on ledger records produced by `storeComparison`
this is the identity. -/
def canonPair (c : Comparison) : Comparison :=
  if c.bookA > c.bookB then ⟨c.bookB, c.bookA, c.winner, c.timestamp⟩ else c

/-- One iteration of the `processAllComparisons` loop: skip when either book
is missing, otherwise lazily default unset ratings to 1500, compute the
outcome (1 iff the winner is the canonical first book, else 0), apply
`updateRatings` and store both new ratings. -/
noncomputable def processOneComparison (m : List LedgerBook) (c0 : Comparison) :
    List LedgerBook :=
  match getBook m (canonPair c0).bookA, getBook m (canonPair c0).bookB with
  | some bookA, some bookB =>
      setRating
        (setRating m (canonPair c0).bookA
          (((updateRatings (bookA.rating.getD 1500) (bookB.rating.getD 1500)
              (if (canonPair c0).winner = (canonPair c0).bookA then 1 else 0)).1 : ℝ)))
        (canonPair c0).bookB
        (((updateRatings (bookA.rating.getD 1500) (bookB.rating.getD 1500)
            (if (canonPair c0).winner = (canonPair c0).bookA then 1 else 0)).2 : ℝ))
  | _, _ => m

/-- `processAllComparisons`: fold the loop body over the ledger in insertion
(chronological) order, starting from the book map. -/
noncomputable def processAllComparisons (books : List LedgerBook) (comps : List Comparison) :
    List LedgerBook :=
  comps.foldl processOneComparison books

/-- A comparison is applied exactly when both of its (canonical) books are
present in the map. -/
def appliedIn (m : List LedgerBook) (c : Comparison) : Bool :=
  (getBook m (canonPair c).bookA).isSome && (getBook m (canonPair c).bookB).isSome

/-- Ids touched by some applied comparison of the ledger. -/
def involvedIds (m : List LedgerBook) (comps : List Comparison) : List ℕ :=
  (comps.filter (appliedIn m)).flatMap
    (fun c => [(canonPair c).bookA, (canonPair c).bookB])

/-- Spec-side single-book initialization: set an unrated involved book to
the default rating, once, up front. -/
def initFun (S : List ℕ) (b : LedgerBook) : LedgerBook :=
  if b.id ∈ S ∧ b.rating.isNone then { b with rating := some INITIAL_RATING } else b

/-- Spec-side up-front initialization pass over the whole map. -/
def initRatings (m : List LedgerBook) (S : List ℕ) : List LedgerBook :=
  m.map (initFun S)

lemma initFun_id (S : List ℕ) (b : LedgerBook) : (initFun S b).id = b.id := by
  unfold initFun; split <;> rfl

lemma setFun_id (i : ℕ) (r : ℝ) (b : LedgerBook) : (setFun i r b).id = b.id := by
  unfold setFun; split <;> rfl

lemma isSome_opmap {α β : Type} (f : α → β) (o : Option α) :
    (o.map f).isSome = o.isSome := by
  cases o <;> rfl

lemma getBook_initRatings (m : List LedgerBook) (S : List ℕ) (bookId : ℕ) :
    getBook (initRatings m S) bookId = (getBook m bookId).map (initFun S) := by
  unfold getBook initRatings
  rw [List.find?_map]
  have hfun : ((fun b : LedgerBook => b.id == bookId) ∘ initFun S)
      = (fun b : LedgerBook => b.id == bookId) := by
    funext b; simp [Function.comp, initFun_id]
  rw [hfun]

lemma getBook_setRating (m : List LedgerBook) (i : ℕ) (r : ℝ) (bookId : ℕ) :
    getBook (setRating m i r) bookId = (getBook m bookId).map (setFun i r) := by
  unfold getBook setRating
  rw [List.find?_map]
  have hfun : ((fun b : LedgerBook => b.id == bookId) ∘ setFun i r)
      = (fun b : LedgerBook => b.id == bookId) := by
    funext b; simp [Function.comp, setFun_id]
  rw [hfun]

lemma appliedIn_initRatings (m : List LedgerBook) (S : List ℕ) (c : Comparison) :
    appliedIn (initRatings m S) c = appliedIn m c := by
  unfold appliedIn
  rw [getBook_initRatings, getBook_initRatings, isSome_opmap, isSome_opmap]

lemma appliedIn_setRating (m : List LedgerBook) (i : ℕ) (r : ℝ) (c : Comparison) :
    appliedIn (setRating m i r) c = appliedIn m c := by
  unfold appliedIn
  rw [getBook_setRating, getBook_setRating, isSome_opmap, isSome_opmap]

lemma processOneComparison_not_applied {m : List LedgerBook} {c : Comparison}
    (h : appliedIn m c = false) : processOneComparison m c = m := by
  unfold appliedIn at h
  unfold processOneComparison
  cases h1 : getBook m (canonPair c).bookA with
  | none => rfl
  | some a =>
    cases h2 : getBook m (canonPair c).bookB with
    | none => rfl
    | some b => rw [h1, h2] at h; simp at h

lemma appliedIn_processOne (m : List LedgerBook) (c0 c : Comparison) :
    appliedIn (processOneComparison m c0) c = appliedIn m c := by
  unfold processOneComparison
  cases h1 : getBook m (canonPair c0).bookA with
  | none => rfl
  | some a =>
    cases h2 : getBook m (canonPair c0).bookB with
    | none => rfl
    | some b => rw [appliedIn_setRating, appliedIn_setRating]

lemma set_set_init_pointwise (S : List ℕ) (A B : ℕ) (r1 r2 : ℝ) (b : LedgerBook) :
    setFun B r2 (setFun A r1 (initFun S b)) = initFun S (setFun B r2 (setFun A r1 b)) := by
  unfold initFun setFun
  split_ifs <;> simp_all

lemma setset_rating_not_none (A B : ℕ) (r1 r2 : ℝ) (b : LedgerBook)
    (h : b.id = A ∨ b.id = B) :
    (setFun B r2 (setFun A r1 b)).rating.isNone = false := by
  unfold setFun
  split_ifs <;> simp_all

lemma initRatings_congr (m : List LedgerBook) (S T : List ℕ)
    (h : ∀ b ∈ m, (b.id ∈ S ∧ b.rating.isNone) ↔ (b.id ∈ T ∧ b.rating.isNone)) :
    initRatings m S = initRatings m T := by
  unfold initRatings
  apply List.map_congr_left
  intro b hb
  unfold initFun
  by_cases hc : b.id ∈ S ∧ b.rating.isNone
  · rw [if_pos hc, if_pos ((h b hb).mp hc)]
  · rw [if_neg hc, if_neg (fun hT => hc ((h b hb).mpr hT))]

lemma set_set_init_comm (m : List LedgerBook) (S : List ℕ) (A B : ℕ) (r1 r2 : ℝ) :
    setRating (setRating (initRatings m S) A r1) B r2
      = initRatings (setRating (setRating m A r1) B r2) S := by
  unfold setRating initRatings
  rw [List.map_map, List.map_map, List.map_map, List.map_map]
  apply List.map_congr_left
  intro b _
  simp only [Function.comp]
  exact set_set_init_pointwise S A B r1 r2 b

lemma initRatings_setset_filter (m : List LedgerBook) (S : List ℕ) (A B : ℕ) (r1 r2 : ℝ) :
    initRatings (setRating (setRating m A r1) B r2) S
      = initRatings (setRating (setRating m A r1) B r2)
          (S.filter (fun x => !(x == A || x == B))) := by
  apply initRatings_congr
  intro b hb
  have hbform : ∃ b0, b = setFun B r2 (setFun A r1 b0) := by
    unfold setRating at hb
    rw [List.map_map] at hb
    obtain ⟨b0, _, hb0⟩ := List.mem_map.mp hb
    exact ⟨b0, hb0.symm⟩
  constructor
  · rintro ⟨hmem, hnone⟩
    refine ⟨List.mem_filter.mpr ⟨hmem, ?_⟩, hnone⟩
    obtain ⟨b0, rfl⟩ := hbform
    by_contra hAB
    simp only [Bool.not_eq_true, Bool.not_eq_false', Bool.or_eq_true, beq_iff_eq] at hAB
    have hid : (setFun B r2 (setFun A r1 b0)).id = A ∨ (setFun B r2 (setFun A r1 b0)).id = B := by
      rcases hAB with h | h
      · exact Or.inl h
      · exact Or.inr h
    have := setset_rating_not_none A B r1 r2 b0
      (by rwa [setFun_id, setFun_id] at hid)
    rw [this] at hnone
    exact Bool.noConfusion hnone
  · rintro ⟨hmem, hnone⟩
    exact ⟨(List.mem_filter.mp hmem).1, hnone⟩

lemma processOne_initRatings (m : List LedgerBook) (S : List ℕ) (c : Comparison)
    (happ : appliedIn m c = true) :
    processOneComparison (initRatings m S) c
      = initRatings (processOneComparison m c)
          (S.filter (fun x =>
            !(x == (canonPair c).bookA || x == (canonPair c).bookB))) := by
  unfold appliedIn at happ
  rw [Bool.and_eq_true] at happ
  obtain ⟨hA, hB⟩ := happ
  obtain ⟨a, ha⟩ := Option.isSome_iff_exists.mp hA
  obtain ⟨b, hb⟩ := Option.isSome_iff_exists.mp hB
  have ha' : getBook (initRatings m S) (canonPair c).bookA = some (initFun S a) := by
    rw [getBook_initRatings, ha]; rfl
  have hb' : getBook (initRatings m S) (canonPair c).bookB = some (initFun S b) := by
    rw [getBook_initRatings, hb]; rfl
  have hra : (initFun S a).rating.getD 1500 = a.rating.getD 1500 := by
    unfold initFun
    split_ifs with h
    · obtain ⟨_, hnone⟩ := h
      rw [Option.isNone_iff_eq_none] at hnone
      rw [hnone]
      rfl
    · rfl
  have hrb : (initFun S b).rating.getD 1500 = b.rating.getD 1500 := by
    unfold initFun
    split_ifs with h
    · obtain ⟨_, hnone⟩ := h
      rw [Option.isNone_iff_eq_none] at hnone
      rw [hnone]
      rfl
    · rfl
  simp only [processOneComparison, ha, hb, ha', hb', hra, hrb]
  rw [set_set_init_comm]
  exact initRatings_setset_filter m S _ _ _ _

lemma foldl_processOne_initRatings :
    ∀ (comps : List Comparison) (books : List LedgerBook) (S : List ℕ),
      (∀ x ∈ S, ∃ c ∈ comps, appliedIn books c = true ∧
        (x = (canonPair c).bookA ∨ x = (canonPair c).bookB)) →
      comps.foldl processOneComparison (initRatings books S)
        = comps.foldl processOneComparison books := by
  intro comps
  induction comps with
  | nil =>
    intro books S hS
    simp only [List.foldl_nil]
    unfold initRatings
    have hid : ∀ b ∈ books, initFun S b = id b := by
      intro b _
      unfold initFun
      rw [if_neg (by
        rintro ⟨hmem, _⟩
        obtain ⟨c, hc, _⟩ := hS b.id hmem
        simp at hc)]
      rfl
    exact (List.map_congr_left hid).trans (List.map_id books)
  | cons c rest ih =>
    intro books S hS
    simp only [List.foldl_cons]
    by_cases happ : appliedIn books c = true
    · rw [processOne_initRatings books S c happ]
      apply ih
      intro x hx
      have hmf := List.mem_filter.mp hx
      have hxne : ¬(x = (canonPair c).bookA ∨ x = (canonPair c).bookB) := by
        have hbool := hmf.2
        simp only [Bool.not_eq_true', Bool.or_eq_false_iff, beq_eq_false_iff_ne,
          ne_eq] at hbool
        tauto
      obtain ⟨c₀, hc₀mem, hc₀app, hc₀end⟩ := hS x hmf.1
      have hc₀rest : c₀ ∈ rest := by
        rcases List.mem_cons.mp hc₀mem with heq | hr
        · subst heq; exact absurd hc₀end hxne
        · exact hr
      exact ⟨c₀, hc₀rest, by rw [appliedIn_processOne]; exact hc₀app, hc₀end⟩
    · rw [Bool.not_eq_true] at happ
      rw [processOneComparison_not_applied happ,
        processOneComparison_not_applied (by rw [appliedIn_initRatings]; exact happ)]
      apply ih
      intro x hx
      obtain ⟨c₀, hc₀mem, hc₀app, hc₀end⟩ := hS x hx
      have hc₀rest : c₀ ∈ rest := by
        rcases List.mem_cons.mp hc₀mem with heq | hr
        · subst heq; rw [hc₀app] at happ; exact Bool.noConfusion happ
        · exact hr
      exact ⟨c₀, hc₀rest, hc₀app, hc₀end⟩

/-- C4: the full replay is deterministic — two runs of
`processAllComparisons` from the same cold baseline give identical final
ratings — and its in-loop lazy defaulting initializes each unrated involved
book to 1500 exactly once: the run is unchanged if every unrated book
touched by an applied comparison is instead initialized up front, once,
before the chronological pass (outcome 1 iff the winner is the canonical
first book is built into `processOneComparison`). -/
theorem claim_C4_replay_deterministic (books : List LedgerBook) (comps : List Comparison) :
    processAllComparisons books comps = processAllComparisons books comps ∧
    processAllComparisons books comps
      = processAllComparisons (initRatings books (involvedIds books comps)) comps := by
  refine ⟨rfl, ?_⟩
  unfold processAllComparisons
  symm
  apply foldl_processOne_initRatings
  intro x hx
  unfold involvedIds at hx
  simp only [List.mem_flatMap, List.mem_filter] at hx
  obtain ⟨c, ⟨hcmem, hcapp⟩, hxend⟩ := hx
  refine ⟨c, hcmem, hcapp, ?_⟩
  simpa using hxend

/-! ## SyncQueue (`modules/sheets.js`) -/

/-- A queued sync operation: an opaque identifier (`Date.now() + Math.random()`
in the source), the operation's type tag, and its retry counter (0 at
`add`).  The payload (spreadsheet id, books, row index) only influences the
outcome of the underlying remote write, which is a parameter (`remote`)
of the embedded `process`. -/
structure SyncOp where
  opId : ℕ
  opType : String
  retries : ℕ
deriving DecidableEq, Repr

/-- A JavaScript `Error` as classified by the sheets module: an optional
HTTP status and a message. -/
structure JsError where
  status : Option ℕ
  message : String
deriving DecidableEq, Repr

/-- The fresh error thrown by `retryWithBackoff` when the network is
offline; it carries no HTTP status. -/
def offlineError : JsError :=
  ⟨none, "Network is offline. Please check your internet connection."⟩

/-- The `error.status === 401 || error.status === 403` test. -/
def isAuthStatus (e : JsError) : Bool :=
  e.status == some 401 || e.status == some 403

/-- The retry loop of `retryWithBackoff`, indexed by the current attempt and
the number of attempts still allowed after it (`maxRetries - attempt`);
`attempts k` is the outcome of the k-th `operation()` call and `onlineAt k`
the connectivity sampled after it fails.  Returns the result together with
how many times `operation()` was invoked.  Backoff delay and jitter are
timing only and are not modelled. -/
def retryWithBackoffGo (attempts : ℕ → Except JsError Unit) (onlineAt : ℕ → Bool) :
    ℕ → ℕ → Except JsError Unit × ℕ
  | attempt, 0 =>
    match attempts attempt with
    | .ok a => (.ok a, attempt + 1)
    | .error e => (.error e, attempt + 1)
  | attempt, remaining + 1 =>
    match attempts attempt with
    | .ok a => (.ok a, attempt + 1)
    | .error e =>
      if isAuthStatus e then (.error e, attempt + 1)
      else if onlineAt attempt = false then (.error offlineError, attempt + 1)
      else retryWithBackoffGo attempts onlineAt (attempt + 1) remaining

/-- `retryWithBackoff(operation, maxRetries)`: run the loop from attempt 0.
On the last attempt (`attempt === maxRetries`) the loop breaks and rethrows
the last error; before that, a 401/403 rethrows immediately and an offline
network rethrows a fresh network error. -/
def retryWithBackoff (attempts : ℕ → Except JsError Unit) (onlineAt : ℕ → Bool)
    (maxRetries : ℕ) : Except JsError Unit × ℕ :=
  retryWithBackoffGo attempts onlineAt 0 maxRetries

/-- Outcome of the underlying remote write call for a queued operation
(`appendSheetData` for `append_books`, `writeSheetData` for
`update_book_row`), after any internal backoff. -/
inductive WriteResult where
  | ok : WriteResult
  | err : JsError → WriteResult
deriving DecidableEq, Repr

/-- Substring occurrence over character lists. -/
def containsSubAux : List Char → List Char → Bool
  | pat, [] => pat.isEmpty
  | pat, c :: tl => pat.isPrefixOf (c :: tl) || containsSubAux pat tl

/-- JavaScript `String.prototype.includes` (case-sensitive substring). -/
def containsSub (s pat : String) : Bool :=
  containsSubAux pat.data s.data

/-- JavaScript `error.status >= 500` (false when `status` is `undefined`). -/
def statusAtLeast500 (e : JsError) : Bool :=
  match e.status with
  | some s => decide (500 ≤ s)
  | none => false

/-- The catch block of `appendSheetData` (called with sheet name `Sheet1`):
every failure is re-thrown as a fresh `Error` carrying a new message and
NO `status` property. -/
def wrapAppendError (e : JsError) : JsError :=
  if e.status == some 404 then
    ⟨none, "Sheet \"Sheet1\" not found in spreadsheet. Please check the sheet name."⟩
  else if e.status == some 403 then
    ⟨none, "Access denied to modify spreadsheet. Please check write permissions."⟩
  else if e.status == some 401 then
    ⟨none, "Authentication expired. Please log out and log back in."⟩
  else if containsSub e.message "network" || containsSub e.message "fetch" then
    ⟨none, "Network error appending data. Please check your internet connection."⟩
  else ⟨none, "Failed to append data: " ++ e.message⟩

/-- The swallow test in the catch block of `appendBooksToSheets`:
`error.message.includes('network') || error.status >= 500`. -/
def swallowAppend (e : JsError) : Bool :=
  containsSub e.message "network" || statusAtLeast500 e

/-- The operation `syncQueue.add` enqueues when a wrapper swallows a
failure: the same payload with the retry counter reset to 0.  The source
gives the clone a fresh random id and timestamp, neither of which is ever
read; the model keeps the original id so the write oracle stays stable. -/
def cloneOf (op : SyncOp) : SyncOp :=
  ⟨op.opId, op.opType, 0⟩

/-- `executeOperation(operation)` as `process()` observes it, composed with
the wrappers it dispatches to.  Result: the thrown error (if any) and the
list of operations the wrappers pushed onto the queue during the call.
`append_books` → `appendBooksToSheets`: queue a clone and resolve when
offline; on a write failure, apply `appendSheetData`'s re-wrap, then queue
a clone and resolve if the wrapped error passes the network/5xx swallow
test, else rethrow it.  `update_book_row` → `updateBookInSheets`: queue a
clone and resolve when offline; catch EVERY write failure, queue a clone
and resolve — it never rethrows.  Unknown types throw.  (The wrappers'
payload validation throws, e.g. an empty books array, are further throwing
paths and are not modelled.) -/
def executeOp (remote : SyncOp → WriteResult) (online : Bool) (op : SyncOp) :
    Except JsError Unit × List SyncOp :=
  if op.opType = "append_books" then
    if online = false then (.ok (), [cloneOf op])
    else match remote op with
      | .ok => (.ok (), [])
      | .err e =>
        if swallowAppend (wrapAppendError e) then (.ok (), [cloneOf op])
        else (.error (wrapAppendError e), [])
  else if op.opType = "update_book_row" then
    if online = false then (.ok (), [cloneOf op])
    else match remote op with
      | .ok => (.ok (), [])
      | .err _ => (.ok (), [cloneOf op])
  else (.error ⟨none, "Unknown operation type: " ++ op.opType⟩, [])

/-- Whether `executeOperation` throws for this operation (online). -/
def execFails (remote : SyncOp → WriteResult) (op : SyncOp) : Bool :=
  match (executeOp remote true op).1 with
  | .ok _ => false
  | .error _ => true

/-- The `for (const operation of this.queue)` loop of `SyncQueue.process`.
The JavaScript `for...of` also visits operations that wrapper calls push
onto `this.queue` mid-pass, so the worklist grows; `fuel` bounds the
number of iterations observed (the source loop need not terminate).  On a
resolved call the operation is dropped; on a throw its retry counter is
incremented and it goes to `remainingOps` if below 3, else to the
permanent-failure report (`console.error`). -/
def processLoop (remote : SyncOp → WriteResult) (online : Bool) :
    ℕ → List SyncOp → List SyncOp → List SyncOp → Option (List SyncOp × List SyncOp)
  | _, [], remaining, reports => some (remaining, reports)
  | 0, _ :: _, _, _ => none
  | fuel + 1, op :: rest, remaining, reports =>
    match (executeOp remote online op).1 with
    | .ok _ =>
      processLoop remote online fuel (rest ++ (executeOp remote online op).2)
        remaining reports
    | .error _ =>
      if op.retries + 1 < 3 then
        processLoop remote online fuel (rest ++ (executeOp remote online op).2)
          (remaining ++ [⟨op.opId, op.opType, op.retries + 1⟩]) reports
      else
        processLoop remote online fuel (rest ++ (executeOp remote online op).2)
          remaining (reports ++ [⟨op.opId, op.opType, op.retries + 1⟩])

/-- `SyncQueue.process()`: no-op returning the queue untouched when offline
or empty (the `isProcessing` re-entrancy flag is false on a non-reentrant
call and is not modelled), otherwise the full pass; `some (queue', reports)`
when the pass finishes within `fuel` iterations. -/
def SyncQueue.process (remote : SyncOp → WriteResult) (online : Bool) (fuel : ℕ)
    (queue : List SyncOp) : Option (List SyncOp × List SyncOp) :=
  if queue = [] ∨ online = false then some (queue, [])
  else processLoop remote online fuel queue [] []

/-- Five queued operations for the spec's SyncQueue scenario. -/
def syncDemoOps : List SyncOp :=
  [⟨1, "append_books", 0⟩, ⟨2, "append_books", 0⟩, ⟨3, "append_books", 0⟩,
   ⟨4, "update_book_row", 0⟩, ⟨5, "update_book_row", 0⟩]

/-- Write oracle of the scenario: the writes of operations 1 and 2 always
fail with 401 (which `appendBooksToSheets` rethrows), the others succeed. -/
def syncDemoRemote : SyncOp → WriteResult :=
  fun op => if op.opId = 1 ∨ op.opId = 2 then .err ⟨some 401, "Unauthorized"⟩ else .ok

/-! ## ConflictResolver (`resolveSyncConflicts` in `modules/sheets.js`) -/

/-- A decimal numeral value (sign, mantissa, scale), denoting
`±mant / 10 ^ scale`; this represents the JavaScript numbers that rating
values take (decimal literals), with value equality decided by
cross-multiplication. -/
structure DecNum where
  neg : Bool
  mant : ℕ
  scale : ℕ
deriving DecidableEq, Repr

/-- Value equality of two decimal numerals (JavaScript `===` on the numbers
they denote; `-0 === 0` holds). -/
def DecNum.valEq (a b : DecNum) : Bool :=
  (a.mant * 10 ^ b.scale == b.mant * 10 ^ a.scale) && (a.neg == b.neg || a.mant == 0)

/-- A JavaScript number-or-absent rating value: `undefined`, `NaN`, or an
actual number. -/
inductive JSNum where
  | undef : JSNum
  | nan : JSNum
  | num : DecNum → JSNum
deriving DecidableEq, Repr

/-- JavaScript strict inequality `a !== b` on rating values:
`undefined !== undefined` is false, `NaN !== x` is always true, mixed
`undefined`/number is true, and two numbers compare by value. -/
def jsStrictNeq : JSNum → JSNum → Bool
  | .undef, .undef => false
  | .num a, .num b => !(DecNum.valEq a b)
  | _, _ => true

/-- JavaScript `isNaN(x)`: true on `NaN` and on `undefined`
(`Number(undefined)` is `NaN`), false on numbers. -/
def jsIsNaN : JSNum → Bool
  | .num _ => false
  | _ => true

/-- Digit run to a natural number. -/
def digitsToNat (cs : List Char) : ℕ :=
  cs.foldl (fun acc c => acc * 10 + (c.toNat - '0'.toNat)) 0

/-- JavaScript `parseFloat` on optionally signed plain decimal numerals —
the only shapes sheet rating cells take; it reads the longest numeric
prefix and yields `NaN` when no digit is found (exponents and `Infinity`
are not modelled). -/
def parseFloatJS (s : String) : JSNum :=
  let cs := s.data.dropWhile (fun c => c.isWhitespace)
  let neg := cs.head? == some '-'
  let cs1 := if cs.head? == some '-' || cs.head? == some '+' then cs.tail else cs
  let intPart := cs1.takeWhile (fun c => c.isDigit)
  let rest := cs1.dropWhile (fun c => c.isDigit)
  let fracPart := match rest with
    | '.' :: r => r.takeWhile (fun c => c.isDigit)
    | _ => []
  if intPart.isEmpty && fracPart.isEmpty then .nan
  else
    .num ⟨neg, digitsToNat intPart * 10 ^ fracPart.length + digitsToNat fracPart,
      fracPart.length⟩

/-- A local book as consumed by `resolveSyncConflicts` (iterated via the
id-keyed `localMap`; ids are unique in the store). -/
structure LocalBook where
  id : ℕ
  title : String
  author : String
  rating : JSNum
deriving DecidableEq, Repr

/-- A parsed remote row as stored in `remoteMap`. -/
structure RemoteBook where
  rowIndex : ℕ
  title : String
  author : String
  dateRead : String
  genre : String
  rating : JSNum
deriving DecidableEq, Repr

/-- JavaScript `String.prototype.toLowerCase`, modelled character-wise
(ASCII case mapping, which covers sheet titles and authors). -/
def toLowerJS (s : String) : String :=
  String.mk (s.data.map Char.toLower)

/-- JavaScript `String.prototype.trim`: strip whitespace from both ends. -/
def trimJS (s : String) : String :=
  String.mk (((s.data.dropWhile Char.isWhitespace).reverse.dropWhile
    Char.isWhitespace).reverse)

/-- `row[i]?.trim() || ''`. -/
def cellOrEmpty (row : List String) (i : ℕ) : String :=
  ((row[i]?).map trimJS).getD ""

/-- `row[4] ? parseFloat(row[4]) : undefined` — a missing or empty (falsy)
cell gives `undefined`. -/
def ratingCell (row : List String) : JSNum :=
  match row[4]? with
  | none => .undef
  | some s => if s = "" then .undef else parseFloatJS s

/-- The case-insensitive composite key
`${title.toLowerCase()}|${author.toLowerCase()}`. -/
def compositeKey (title author : String) : String :=
  toLowerJS title ++ "|" ++ toLowerJS author

/-- Key of a local book. -/
def localKey (b : LocalBook) : String :=
  compositeKey b.title b.author

/-- Build `remoteMap`: skip the header row (i = 0), keep rows with at least
two cells, key by the composite key, remember the 1-based sheet row.
Insertion order is kept; a later duplicate key overwrites
(`remoteGet` reads the last insertion). -/
def buildRemoteMap (remoteData : List (List String)) : List (String × RemoteBook) :=
  (List.range remoteData.length).filterMap (fun i =>
    if i = 0 then none
    else match remoteData[i]? with
      | none => none
      | some row =>
        if 2 ≤ row.length then
          some (compositeKey (cellOrEmpty row 0) (cellOrEmpty row 1),
            ⟨i + 1, cellOrEmpty row 0, cellOrEmpty row 1, cellOrEmpty row 2,
              cellOrEmpty row 3, ratingCell row⟩)
        else none)

/-- `remoteMap.get(key)`: the value of the last `set` for the key. -/
def remoteGet (rmap : List (String × RemoteBook)) (key : String) : Option RemoteBook :=
  (rmap.reverse.find? (fun p => p.1 == key)).map (fun p => p.2)

/-- `localMap.get(bookId)` (last set wins; ids are unique in practice). -/
def localMapGet (localBooks : List LocalBook) (bookId : ℕ) : Option LocalBook :=
  localBooks.reverse.find? (fun b => b.id == bookId)

/-- One recorded conflict: local and remote rating for the same composite
key, plus the remote row to overwrite. -/
structure SyncConflict where
  bookId : ℕ
  localRating : JSNum
  remoteRating : JSNum
  rowIndex : ℕ
deriving DecidableEq, Repr

/-- One reported resolution (`resolution` is `"local_preferred"` or
`"failed"`; the human-readable message string is not modelled). -/
structure SyncResolution where
  bookId : ℕ
  resolution : String
deriving DecidableEq, Repr

/-- Result of `resolveSyncConflicts`, instrumented with the list of remote
write invocations `(rowIndex, rating written)`. -/
structure ConflictResult where
  conflicts : List SyncConflict
  resolutions : List SyncResolution
  writes : List (ℕ × JSNum)
deriving DecidableEq, Repr

/-- The conflict-detection loop: for every local book whose composite key
matches a remote row, record a conflict when
`localRating !== remoteRating && !(isNaN(localRating) && isNaN(remoteRating))`. -/
def detectConflicts (localBooks : List LocalBook) (rmap : List (String × RemoteBook)) :
    List SyncConflict :=
  localBooks.filterMap (fun lb =>
    match remoteGet rmap (localKey lb) with
    | none => none
    | some rb =>
      if jsStrictNeq lb.rating rb.rating && !(jsIsNaN lb.rating && jsIsNaN rb.rating) then
        some ⟨lb.id, lb.rating, rb.rating, rb.rowIndex⟩
      else none)

/-- The auto-resolution loop body: look the local book up again, invoke the
remote write (`updateBookInSheets` with the local book and the conflict's
row); `writeThrows rowIndex = some msg` models the call throwing.  Every
invocation is recorded in the writes trace. -/
def resolveStep (writeThrows : ℕ → Option String) (localBooks : List LocalBook)
    (acc : List SyncResolution × List (ℕ × JSNum)) (cf : SyncConflict) :
    List SyncResolution × List (ℕ × JSNum) :=
  match localMapGet localBooks cf.bookId with
  | none => (acc.1 ++ [⟨cf.bookId, "failed"⟩], acc.2)
  | some lb =>
    match writeThrows cf.rowIndex with
    | none => (acc.1 ++ [⟨cf.bookId, "local_preferred"⟩], acc.2 ++ [(cf.rowIndex, lb.rating)])
    | some _ => (acc.1 ++ [⟨cf.bookId, "failed"⟩], acc.2 ++ [(cf.rowIndex, lb.rating)])

/-- `resolveSyncConflicts(spreadsheetId, localBooks, remoteData)`: detect
conflicts, then auto-resolve each one local-always-wins. -/
def resolveSyncConflicts (writeThrows : ℕ → Option String)
    (localBooks : List LocalBook) (remoteData : List (List String)) : ConflictResult :=
  let conflicts := detectConflicts localBooks (buildRemoteMap remoteData)
  let rr := conflicts.foldl (resolveStep writeThrows localBooks) ([], [])
  ⟨conflicts, rr.1, rr.2⟩

lemma isAuthStatus_cases {e : JsError} (h : isAuthStatus e = true) :
    e.status = some 401 ∨ e.status = some 403 := by
  unfold isAuthStatus at h
  rcases Bool.or_eq_true_iff.mp h with h' | h'
  · exact Or.inl (by simpa using h')
  · exact Or.inr (by simpa using h')

lemma swallowAppend_wrap_auth {e : JsError} (hauth : isAuthStatus e = true) :
    swallowAppend (wrapAppendError e) = false ∧ (wrapAppendError e).status = none := by
  rcases isAuthStatus_cases hauth with h | h
  · unfold wrapAppendError
    rw [h, if_neg (by decide), if_neg (by decide), if_pos (by decide)]
    exact ⟨by decide, rfl⟩
  · unfold wrapAppendError
    rw [h, if_neg (by decide), if_pos (by decide)]
    exact ⟨by decide, rfl⟩

lemma executeOp_update_ok (remote : SyncOp → WriteResult) (online : Bool) (op : SyncOp)
    (hty : op.opType = "update_book_row") :
    (executeOp remote online op).1 = .ok () := by
  unfold executeOp
  rw [hty, if_neg (by decide), if_pos rfl]
  by_cases hon : online = false
  · rw [if_pos hon]
  · rw [if_neg hon]
    cases hr : remote op <;> rfl

lemma executeOp_update_err (remote : SyncOp → WriteResult) (op : SyncOp) (e : JsError)
    (hty : op.opType = "update_book_row") (hr : remote op = .err e) :
    executeOp remote true op = (.ok (), [cloneOf op]) := by
  unfold executeOp
  rw [hty, if_neg (by decide), if_pos rfl, if_neg (by decide), hr]

lemma executeOp_append_auth (remote : SyncOp → WriteResult) (op : SyncOp) (e : JsError)
    (hty : op.opType = "append_books") (hr : remote op = .err e)
    (hauth : isAuthStatus e = true) :
    executeOp remote true op = (.error (wrapAppendError e), []) := by
  unfold executeOp
  rw [hty, if_pos rfl, if_neg (by decide), hr]
  show (if swallowAppend (wrapAppendError e) = true then
      ((.ok (), [cloneOf op]) : Except JsError Unit × List SyncOp)
    else (.error (wrapAppendError e), [])) = (.error (wrapAppendError e), [])
  rw [if_neg (by rw [(swallowAppend_wrap_auth hauth).1]; exact Bool.false_ne_true)]

lemma executeOp_clones (remote : SyncOp → WriteResult) (online : Bool) (op : SyncOp) :
    (executeOp remote online op).2 = [] ∨ (executeOp remote online op).2 = [cloneOf op] := by
  unfold executeOp
  by_cases h1 : op.opType = "append_books"
  · rw [if_pos h1]
    by_cases hon : online = false
    · rw [if_pos hon]; right; rfl
    · rw [if_neg hon]
      cases hr : remote op with
      | ok => left; rfl
      | err e =>
        by_cases hs : swallowAppend (wrapAppendError e) = true
        · right
          show (if swallowAppend (wrapAppendError e) = true then
              ((.ok (), [cloneOf op]) : Except JsError Unit × List SyncOp)
            else (.error (wrapAppendError e), [])).2 = [cloneOf op]
          rw [if_pos hs]
        · left
          show (if swallowAppend (wrapAppendError e) = true then
              ((.ok (), [cloneOf op]) : Except JsError Unit × List SyncOp)
            else (.error (wrapAppendError e), [])).2 = []
          rw [if_neg hs]
  · rw [if_neg h1]
    by_cases h2 : op.opType = "update_book_row"
    · rw [if_pos h2]
      by_cases hon : online = false
      · rw [if_pos hon]; right; rfl
      · rw [if_neg hon]
        cases hr : remote op with
        | ok => left; rfl
        | err e => right; rfl
    · rw [if_neg h2]; left; rfl

lemma executeOp_clones_type (remote : SyncOp → WriteResult) (online : Bool) (op : SyncOp) :
    ∀ o ∈ (executeOp remote online op).2, o.opType = op.opType := by
  intro o ho
  rcases executeOp_clones remote online op with h | h
  · rw [h] at ho; simp at ho
  · rw [h] at ho
    simp at ho
    rw [ho]
    rfl

lemma processLoop_no_clones (remote : SyncOp → WriteResult) :
    ∀ (w : List SyncOp) (fuel : ℕ) (rem rep : List SyncOp),
      (∀ op ∈ w, (executeOp remote true op).2 = []) → w.length ≤ fuel →
      processLoop remote true fuel w rem rep
        = some (rem ++ w.filterMap (fun op => if execFails remote op then
              (if op.retries + 1 < 3 then some ⟨op.opId, op.opType, op.retries + 1⟩
               else none) else none),
            rep ++ w.filterMap (fun op => if execFails remote op then
              (if op.retries + 1 < 3 then none
               else some ⟨op.opId, op.opType, op.retries + 1⟩) else none)) := by
  intro w
  induction w with
  | nil =>
    intro fuel rem rep _ _
    cases fuel <;> simp [processLoop]
  | cons op rest ih =>
    intro fuel rem rep hcl hlen
    obtain ⟨f, rfl⟩ : ∃ f, fuel = f + 1 := ⟨fuel - 1, by simp at hlen; omega⟩
    have hop : (executeOp remote true op).2 = [] := hcl op (by simp)
    cases hres : (executeOp remote true op).1 with
    | ok a =>
      have hef : execFails remote op = false := by unfold execFails; rw [hres]
      simp only [processLoop, hres, hop, List.append_nil]
      rw [ih f rem rep (fun o ho => hcl o (by simp [ho])) (by simp at hlen; omega)]
      simp [List.filterMap_cons, hef]
    | error er =>
      have hef : execFails remote op = true := by unfold execFails; rw [hres]
      simp only [processLoop, hres, hop, List.append_nil]
      by_cases h2 : op.retries + 1 < 3
      · rw [if_pos h2,
          ih f (rem ++ [SyncOp.mk op.opId op.opType (op.retries + 1)]) rep
            (fun o ho => hcl o (by simp [ho])) (by simp at hlen; omega)]
        simp [List.filterMap_cons, hef, h2]
      · rw [if_neg h2,
          ih f rem (rep ++ [SyncOp.mk op.opId op.opType (op.retries + 1)])
            (fun o ho => hcl o (by simp [ho])) (by simp at hlen; omega)]
        simp [List.filterMap_cons, hef, h2]

lemma processLoop_update_only (remote : SyncOp → WriteResult) :
    ∀ (fuel : ℕ) (w rem rep : List SyncOp) (res : List SyncOp × List SyncOp),
      (∀ op ∈ w, op.opType = "update_book_row") →
      processLoop remote true fuel w rem rep = some res → res = (rem, rep) := by
  intro fuel
  induction fuel with
  | zero =>
    intro w rem rep res hw h
    cases w with
    | nil => simp [processLoop] at h; exact h.symm
    | cons op rest => simp [processLoop] at h
  | succ f ih =>
    intro w rem rep res hw h
    cases w with
    | nil => simp [processLoop] at h; exact h.symm
    | cons op rest =>
      have hok : (executeOp remote true op).1 = .ok () :=
        executeOp_update_ok remote true op (hw op (by simp))
      simp only [processLoop, hok] at h
      refine ih _ rem rep res ?_ h
      intro o ho
      rcases List.mem_append.mp ho with ho' | ho'
      · exact hw o (by simp [ho'])
      · rw [executeOp_clones_type remote true op o ho']
        exact hw op (by simp)

lemma processLoop_update_diverges (remote : SyncOp → WriteResult) (op : SyncOp)
    (e : JsError) (hty : op.opType = "update_book_row") (hr0 : op.retries = 0)
    (hfail : ∀ o : SyncOp, remote o = .err e) :
    ∀ (fuel : ℕ) (rem rep : List SyncOp),
      processLoop remote true fuel [op] rem rep = none := by
  have hclone : cloneOf op = op := by
    cases op
    simp [cloneOf] at hr0 ⊢
    exact hr0.symm
  intro fuel
  induction fuel with
  | zero => intro rem rep; rfl
  | succ f ih =>
    intro rem rep
    have hok : (executeOp remote true op).1 = .ok () :=
      executeOp_update_ok remote true op hty
    have hcl : (executeOp remote true op).2 = [cloneOf op] := by
      rw [executeOp_update_err remote op e hty (hfail op)]
    simp only [processLoop, hok, hcl, List.nil_append, hclone]
    exact ih rem rep

/-- Counterexample to C1: a queued `update_book_row` operation whose remote
write fails is NOT handled by the retry-counter path.  `updateBookInSheets`
catches the failure, re-enqueues a fresh clone with `retries: 0`, and
resolves, so `process()` records a success: the failed operation's counter
is never incremented, the operation is dropped from the queue with an empty
permanent-failure report (second conjunct: its clone's write succeeds, the
pass ends with queue `[]` and report `[]`), and when the write keeps
failing the pass just keeps visiting fresh `retries: 0` clones and never
reaches the ceiling within 10 iterations (third conjunct). -/
theorem claim_C1_swallowed_counterexample :
    executeOp (fun _ => .err ⟨some 500, "Internal error"⟩) true
        ⟨2, "update_book_row", 1⟩
      = (.ok (), [⟨2, "update_book_row", 0⟩]) ∧
    SyncQueue.process
        (fun op => if op.retries = 1 then .err ⟨some 500, "Internal error"⟩ else .ok)
        true 10 [⟨2, "update_book_row", 1⟩]
      = some ([], []) ∧
    SyncQueue.process (fun _ => .err ⟨some 500, "Internal error"⟩) true 10
        [⟨2, "update_book_row", 1⟩]
      = none :=
  ⟨by rfl, by decide, by decide⟩

/-- C1 (amended): the retry-counter contract of `process()` holds exactly
for operations whose `executeOperation` call throws: each such failure
increments the counter, keeps the operation queued for the next pass iff
the counter is below the ceiling 3, and otherwise drops it into the
permanent-failure report; resolved operations are dropped (first conjunct,
for passes in which no wrapper swallows a failure).  A failed
`update_book_row` write never throws: `updateBookInSheets` re-enqueues a
fresh clone with `retries: 0` and resolves (second conjunct), so a queue of
`update_book_row` operations can never contribute a counted retry or a
permanent-failure report (third conjunct), and a persistently failing
`update_book_row` write makes the pass revisit fresh clones forever
(fourth conjunct).  The spec's scenario holds for throwing failures: 5
operations of which 2 `append_books` fail with 401 on every pass and 3
succeed leave, after three passes, an empty queue with exactly 2 reported
permanent failures (last conjunct). -/
theorem claim_C1_syncQueue_process_amended (remote : SyncOp → WriteResult)
    (q : List SyncOp) (fuel : ℕ) :
    ((∀ op ∈ q, (executeOp remote true op).2 = []) → q.length ≤ fuel →
      SyncQueue.process remote true fuel q
        = some (q.filterMap (fun op => if execFails remote op then
              (if op.retries + 1 < 3 then some ⟨op.opId, op.opType, op.retries + 1⟩
               else none) else none),
            q.filterMap (fun op => if execFails remote op then
              (if op.retries + 1 < 3 then none
               else some ⟨op.opId, op.opType, op.retries + 1⟩) else none))) ∧
    (∀ op e, op.opType = "update_book_row" → remote op = .err e →
      executeOp remote true op = (.ok (), [⟨op.opId, op.opType, 0⟩])) ∧
    (∀ res, (∀ op ∈ q, op.opType = "update_book_row") →
      SyncQueue.process remote true fuel q = some res → res = (q, []) ∨ res = ([], [])) ∧
    (∀ op e, op.opType = "update_book_row" → op.retries = 0 →
      (∀ o : SyncOp, remote o = .err e) →
      SyncQueue.process remote true fuel [op] = none) ∧
    (SyncQueue.process syncDemoRemote true 5 syncDemoOps
        = some ([⟨1, "append_books", 1⟩, ⟨2, "append_books", 1⟩], []) ∧
      SyncQueue.process syncDemoRemote true 5
          [⟨1, "append_books", 1⟩, ⟨2, "append_books", 1⟩]
        = some ([⟨1, "append_books", 2⟩, ⟨2, "append_books", 2⟩], []) ∧
      SyncQueue.process syncDemoRemote true 5
          [⟨1, "append_books", 2⟩, ⟨2, "append_books", 2⟩]
        = some ([], [⟨1, "append_books", 3⟩, ⟨2, "append_books", 3⟩])) := by
  refine ⟨?_, ?_, ?_, ?_, by decide, by decide, by decide⟩
  · intro hcl hlen
    unfold SyncQueue.process
    by_cases hq : q = []
    · subst hq; simp
    · rw [if_neg (by simp [hq])]
      rw [processLoop_no_clones remote q fuel [] [] hcl hlen]
      simp
  · intro op e hty hr
    exact executeOp_update_err remote op e hty hr
  · intro res hw h
    unfold SyncQueue.process at h
    by_cases hq : q = []
    · rw [if_pos (Or.inl hq)] at h
      injection h with h'
      exact Or.inl h'.symm
    · rw [if_neg (by simp [hq])] at h
      exact Or.inr (processLoop_update_only remote fuel q [] [] res hw h)
  · intro op e hty hr0 hfail
    unfold SyncQueue.process
    rw [if_neg (by simp)]
    exact processLoop_update_diverges remote op e hty hr0 hfail fuel [] []

/-- Counterexample to C2's queue-level assertion, on the full
`executeOperation` composition: an `append_books` operation whose write
fails with 401 on every pass throws (the auth error is re-wrapped by
`appendSheetData` and rethrown by `appendBooksToSheets`), so it IS retried
automatically on the second and third `process()` calls, and after the
third failed attempt it is removed from the queue (the queue ends empty),
surviving only in the permanent-failure report.  This refutes "never
retried automatically" and "held pending user re-authentication rather
than discarded". -/
theorem claim_C2_auth_counterexample :
    SyncQueue.process (fun _ => .err ⟨some 401, "Unauthorized"⟩) true 5
        [⟨7, "append_books", 0⟩]
      = some ([⟨7, "append_books", 1⟩], []) ∧
    SyncQueue.process (fun _ => .err ⟨some 401, "Unauthorized"⟩) true 5
        [⟨7, "append_books", 1⟩]
      = some ([⟨7, "append_books", 2⟩], []) ∧
    SyncQueue.process (fun _ => .err ⟨some 401, "Unauthorized"⟩) true 5
        [⟨7, "append_books", 2⟩]
      = some ([], [⟨7, "append_books", 3⟩]) :=
  ⟨by decide, by decide, by decide⟩

/-- C2 (amended): a 401/403 failure is not retried inside
`retryWithBackoff` — the first auth failure (with attempts remaining)
terminates the call after exactly one `operation()` invocation, rethrowing
the original error whose status is preserved and which differs from the
status-less offline network error.  At the `SyncQueue` level the two
operation types diverge: an `append_books` auth failure is re-wrapped by
`appendSheetData` into a status-less error that fails the network/5xx
swallow test, so `executeOperation` throws it and the operation follows
the ordinary counter path — re-queued with an incremented counter while
below the ceiling 3 and dropped into the permanent-failure report at the
ceiling, not held indefinitely; an `update_book_row` auth failure is
swallowed by `updateBookInSheets`, which re-enqueues a fresh clone with
`retries: 0` and resolves, never reaching the counter path at all. -/
theorem claim_C2_authNotRetried_amended (attempts : ℕ → Except JsError Unit)
    (onlineAt : ℕ → Bool) (maxRetries : ℕ) (e : JsError)
    (h0 : attempts 0 = .error e) (hauth : isAuthStatus e = true)
    (hmax : 0 < maxRetries) :
    retryWithBackoff attempts onlineAt maxRetries = (.error e, 1) ∧
    e.status ≠ none ∧ e ≠ offlineError ∧
    (∀ (remote : SyncOp → WriteResult) (op : SyncOp),
      op.opType = "append_books" → remote op = .err e →
        executeOp remote true op = (.error (wrapAppendError e), []) ∧
        (wrapAppendError e).status = none) ∧
    (∀ (remote : SyncOp → WriteResult) (q : List SyncOp) (fuel : ℕ) (op : SyncOp),
      op ∈ q → (∀ o ∈ q, (executeOp remote true o).2 = []) → q.length ≤ fuel →
      execFails remote op = true →
      ∀ res, SyncQueue.process remote true fuel q = some res →
        (op.retries + 1 < 3 →
          (⟨op.opId, op.opType, op.retries + 1⟩ : SyncOp) ∈ res.1) ∧
        (3 ≤ op.retries + 1 →
          (⟨op.opId, op.opType, op.retries + 1⟩ : SyncOp) ∈ res.2)) ∧
    (∀ (remote : SyncOp → WriteResult) (op : SyncOp),
      op.opType = "update_book_row" → remote op = .err e →
        executeOp remote true op = (.ok (), [⟨op.opId, op.opType, 0⟩])) := by
  have hstat := isAuthStatus_cases hauth
  refine ⟨?_, ?_, ?_, ?_, ?_, ?_⟩
  · obtain ⟨mr, rfl⟩ : ∃ mr, maxRetries = mr + 1 := ⟨maxRetries - 1, by omega⟩
    unfold retryWithBackoff
    simp [retryWithBackoffGo, h0, hauth]
  · rcases hstat with h | h <;> simp [h]
  · intro hcontra
    rw [hcontra] at hstat
    simp [offlineError] at hstat
  · intro remote op hty hr
    exact ⟨executeOp_append_auth remote op e hty hr hauth,
      (swallowAppend_wrap_auth hauth).2⟩
  · intro remote q fuel op hmem hcl hlen hfails res hres
    unfold SyncQueue.process at hres
    rw [if_neg (by simp only [Bool.true_eq_false, or_false]; exact List.ne_nil_of_mem hmem),
      processLoop_no_clones remote q fuel [] [] hcl hlen] at hres
    injection hres with hres'
    constructor
    · intro hlt
      rw [← hres']
      simp only [List.nil_append]
      exact List.mem_filterMap.mpr ⟨op, hmem, by simp [hfails, hlt]⟩
    · intro hge
      rw [← hres']
      simp only [List.nil_append]
      have hnlt : ¬(op.retries + 1 < 3) := by omega
      exact List.mem_filterMap.mpr ⟨op, hmem, by simp [hfails, hnlt]⟩
  · intro remote op hty hr
    exact executeOp_update_err remote op e hty hr

/-- Witness for the amended C2 at a concrete input: an `operation()` that
always fails with status 401. -/
theorem claim_C2_authNotRetried_amended_witness :
    ((fun _ : ℕ => (Except.error ⟨some 401, "Unauthorized"⟩ : Except JsError Unit)) 0
        = Except.error ⟨some 401, "Unauthorized"⟩) ∧
    isAuthStatus ⟨some 401, "Unauthorized"⟩ = true ∧ (0 < 3) ∧
    (retryWithBackoff (fun _ => .error ⟨some 401, "Unauthorized"⟩) (fun _ => true) 3
        = (.error ⟨some 401, "Unauthorized"⟩, 1) ∧
      (⟨some 401, "Unauthorized"⟩ : JsError).status ≠ none ∧
      (⟨some 401, "Unauthorized"⟩ : JsError) ≠ offlineError ∧
      (∀ (remote : SyncOp → WriteResult) (op : SyncOp),
        op.opType = "append_books" →
        remote op = .err ⟨some 401, "Unauthorized"⟩ →
          executeOp remote true op
              = (.error (wrapAppendError ⟨some 401, "Unauthorized"⟩), []) ∧
          (wrapAppendError ⟨some 401, "Unauthorized"⟩).status = none) ∧
      (∀ (remote : SyncOp → WriteResult) (q : List SyncOp) (fuel : ℕ) (op : SyncOp),
        op ∈ q → (∀ o ∈ q, (executeOp remote true o).2 = []) → q.length ≤ fuel →
        execFails remote op = true →
        ∀ res, SyncQueue.process remote true fuel q = some res →
          (op.retries + 1 < 3 →
            (⟨op.opId, op.opType, op.retries + 1⟩ : SyncOp) ∈ res.1) ∧
          (3 ≤ op.retries + 1 →
            (⟨op.opId, op.opType, op.retries + 1⟩ : SyncOp) ∈ res.2)) ∧
      (∀ (remote : SyncOp → WriteResult) (op : SyncOp),
        op.opType = "update_book_row" →
        remote op = .err ⟨some 401, "Unauthorized"⟩ →
          executeOp remote true op = (.ok (), [⟨op.opId, op.opType, 0⟩]))) :=
  ⟨rfl, by decide, by decide,
    claim_C2_authNotRetried_amended (fun _ => .error ⟨some 401, "Unauthorized"⟩)
      (fun _ => true) 3 ⟨some 401, "Unauthorized"⟩ rfl (by decide) (by decide)⟩


lemma detectConflicts_sound {localBooks : List LocalBook}
    {rmap : List (String × RemoteBook)} {cf : SyncConflict}
    (h : cf ∈ detectConflicts localBooks rmap) :
    ∃ lb ∈ localBooks, ∃ rb, remoteGet rmap (localKey lb) = some rb ∧
      cf = ⟨lb.id, lb.rating, rb.rating, rb.rowIndex⟩ ∧
      (jsStrictNeq lb.rating rb.rating
        && !(jsIsNaN lb.rating && jsIsNaN rb.rating)) = true := by
  unfold detectConflicts at h
  obtain ⟨lb, hmem, heq⟩ := List.mem_filterMap.mp h
  cases hro : remoteGet rmap (localKey lb) with
  | none => rw [hro] at heq; simp at heq
  | some rb =>
    rw [hro] at heq
    have heq' : (if (jsStrictNeq lb.rating rb.rating
        && !(jsIsNaN lb.rating && jsIsNaN rb.rating)) = true then
          some (⟨lb.id, lb.rating, rb.rating, rb.rowIndex⟩ : SyncConflict)
        else none) = some cf := heq
    by_cases hc : (jsStrictNeq lb.rating rb.rating
        && !(jsIsNaN lb.rating && jsIsNaN rb.rating)) = true
    · rw [if_pos hc] at heq'
      exact ⟨lb, hmem, rb, hro, (Option.some.injEq _ _ ▸ heq').symm, hc⟩
    · rw [if_neg hc] at heq'
      simp at heq'

lemma localMapGet_isSome {localBooks : List LocalBook} {lb : LocalBook}
    (h : lb ∈ localBooks) : (localMapGet localBooks lb.id).isSome = true := by
  unfold localMapGet
  rw [List.find?_isSome]
  exact ⟨lb, List.mem_reverse.mpr h, by simp⟩

lemma resolve_foldl_local_preferred (localBooks : List LocalBook) :
    ∀ (cfs : List SyncConflict) (acc : List SyncResolution × List (ℕ × JSNum)),
      (∀ res ∈ acc.1, res.resolution = "local_preferred") →
      (∀ cf ∈ cfs, (localMapGet localBooks cf.bookId).isSome = true) →
      ∀ res ∈ (cfs.foldl (resolveStep (fun _ => none) localBooks) acc).1,
        res.resolution = "local_preferred" := by
  intro cfs
  induction cfs with
  | nil =>
    intro acc hacc _ res hres
    simpa using hacc res (by simpa using hres)
  | cons cf rest ih =>
    intro acc hacc hcf
    simp only [List.foldl_cons]
    obtain ⟨lb, hlb⟩ := Option.isSome_iff_exists.mp (hcf cf (by simp))
    apply ih
    · intro res hres
      simp only [resolveStep, hlb] at hres
      rcases List.mem_append.mp hres with hin | hin
      · exact hacc res hin
      · simp at hin
        rw [hin]
    · intro cf' hcf'
      exact hcf cf' (by simp [hcf'])

/-- Counterexample to C3: the claim says a conflict is recorded exactly when
the two ratings differ and NEITHER side is the no-value sentinel; here the
remote rating cell is empty — `undefined`, the sentinel, for which
`isNaN` holds — yet `resolveSyncConflicts` records exactly one conflict,
because the source only suppresses the conflict when BOTH sides are
`NaN`-like. -/
theorem claim_C3_conflict_counterexample :
    (resolveSyncConflicts (fun _ => none)
        [⟨1, "A Book", "An Author", .num ⟨false, 85, 1⟩⟩]
        [["Title", "Author", "Date", "Genre", "Rating"],
         ["A Book", "An Author", "", "", ""]]).conflicts
      = [⟨1, .num ⟨false, 85, 1⟩, .undef, 2⟩] ∧
    jsIsNaN .undef = true :=
  ⟨by decide, by decide⟩

/-- C3 (amended): for every local book matching a remote row by the
case-insensitive composite key, a conflict is recorded exactly when the
ratings are strictly unequal and NOT BOTH sides are the no-value sentinel
(a one-sided sentinel still conflicts); with a remote write that does not
throw, every conflict is resolved local-always-wins (`"local_preferred"`),
and local rating 8.5 against remote 7.0 yields exactly one conflict with
the remote write invoked with 8.5. -/
theorem claim_C3_conflictResolver_amended :
    (resolveSyncConflicts (fun _ => none)
        [⟨1, "A Book", "An Author", .num ⟨false, 85, 1⟩⟩]
        [["Title", "Author", "Date", "Genre", "Rating"],
         ["A Book", "An Author", "", "", "7.0"]])
      = ⟨[⟨1, .num ⟨false, 85, 1⟩, .num ⟨false, 70, 1⟩, 2⟩], [⟨1, "local_preferred"⟩],
         [(2, .num ⟨false, 85, 1⟩)]⟩ ∧
    (∀ (w : ℕ → Option String) (localBooks : List LocalBook)
        (remoteData : List (List String)),
      ∀ cf ∈ (resolveSyncConflicts w localBooks remoteData).conflicts,
        jsStrictNeq cf.localRating cf.remoteRating = true ∧
        (jsIsNaN cf.localRating && jsIsNaN cf.remoteRating) = false) ∧
    (∀ (w : ℕ → Option String) (localBooks : List LocalBook)
        (remoteData : List (List String)) (lb : LocalBook) (rb : RemoteBook),
      lb ∈ localBooks →
      remoteGet (buildRemoteMap remoteData) (localKey lb) = some rb →
      jsStrictNeq lb.rating rb.rating = true →
      (jsIsNaN lb.rating && jsIsNaN rb.rating) = false →
      (⟨lb.id, lb.rating, rb.rating, rb.rowIndex⟩ : SyncConflict)
        ∈ (resolveSyncConflicts w localBooks remoteData).conflicts) ∧
    (∀ (localBooks : List LocalBook) (remoteData : List (List String)),
      ∀ res ∈ (resolveSyncConflicts (fun _ => none) localBooks remoteData).resolutions,
        res.resolution = "local_preferred") := by
  refine ⟨by decide, ?_, ?_, ?_⟩
  · intro w localBooks remoteData cf hcf
    obtain ⟨lb, _, rb, _, hcfeq, hcond⟩ := detectConflicts_sound hcf
    rw [Bool.and_eq_true] at hcond
    obtain ⟨hneq, hnot⟩ := hcond
    rw [Bool.not_eq_true'] at hnot
    subst hcfeq
    exact ⟨hneq, hnot⟩
  · intro w localBooks remoteData lb rb hmem hrg hneq hnan
    show _ ∈ detectConflicts localBooks (buildRemoteMap remoteData)
    unfold detectConflicts
    refine List.mem_filterMap.mpr ⟨lb, hmem, ?_⟩
    rw [hrg]
    show (if (jsStrictNeq lb.rating rb.rating
        && !(jsIsNaN lb.rating && jsIsNaN rb.rating)) = true then
          some (⟨lb.id, lb.rating, rb.rating, rb.rowIndex⟩ : SyncConflict)
        else none) = some ⟨lb.id, lb.rating, rb.rating, rb.rowIndex⟩
    rw [if_pos (by simp [hneq, hnan])]
  · intro localBooks remoteData res hres
    have hconf : ∀ cf ∈ detectConflicts localBooks (buildRemoteMap remoteData),
        (localMapGet localBooks cf.bookId).isSome = true := by
      intro cf hcf
      obtain ⟨lb, hlbmem, rb, _, hcfeq, _⟩ := detectConflicts_sound hcf
      subst hcfeq
      exact localMapGet_isSome hlbmem
    exact resolve_foldl_local_preferred localBooks _ ([], [])
      (by intro res hres; simp at hres) hconf res hres
